/-
Verification of the natural-language specification of the FreeCAD Gridfinity
workbench geometry-construction module (`feature_construction.py`) against its
source.

The module builds 3-D solids by issuing calls into the host CAD kernel.  We
shallowly embed those calls as a syntax tree of kernel operations (`Prim` for
primitive solid constructors, `Shape` for boolean/transform combinations), and
embed each construction function of the module as a pure Lean function from the
document object's numeric parameters (`Obj`) to such a tree.  All host
quantities (`Units.Quantity`, millimetres) are embedded as rationals.  The two
irrational host constants that feed dead or abstracted positions
(`math.sin(pi/4)` and `math.sqrt(3)`) are passed as explicit rational
parameters where they occur, so that every definition stays executable and
decidable.
-/
import Mathlib

namespace Gridfinity

/-- A point / translation vector in millimetres, as used by `FreeCAD.Vector`. -/
abbrev Vec3 := ℚ × ℚ × ℚ

/-- Shape of a magnet hole, property `MagnetHolesShape` of the document
object: the code compares it against the string `"Hex"`; any other value takes
the cylinder branch (the workbench offers `"Round"`). -/
inductive HoleShape where
  | Hex
  | Round
deriving DecidableEq, Repr

/-- Value of the `LabelShelfStyle` enumeration property.  The code only
compares it against `"Overhang"`; `Standard` stands for every other value. -/
inductive ShelfStyle where
  | Overhang
  | Standard
deriving DecidableEq, Repr

/-- Value of the `LabelShelfPlacement` enumeration property. -/
inductive ShelfPlacement where
  | FullWidth
  | Center
  | Left
  | Right
deriving DecidableEq, Repr

/-- The numeric / flag properties of the `FreeCAD.DocumentObject` consumed by
`feature_construction.py`.  Lengths are rationals (millimetres); divider and
grid-unit counts are naturals (integer properties of the document object). -/
structure Obj where
  xGridUnits : ℕ
  yGridUnits : ℕ
  GridSize : ℚ
  BinUnit : ℚ
  TotalHeight : ℚ
  UsableHeight : ℚ
  HeightUnitValue : ℚ
  BaseProfileBottomChamfer : ℚ
  BaseProfileTopChamfer : ℚ
  BaseProfileVerticalSection : ℚ
  BinBottomRadius : ℚ
  BinVerticalRadius : ℚ
  BinOuterRadius : ℚ
  xTotalWidth : ℚ
  yTotalWidth : ℚ
  WallThickness : ℚ
  DividerThickness : ℚ
  xDividers : ℕ
  yDividers : ℕ
  xDividerHeight : ℚ
  ScoopRadius : ℚ
  StackingLipTopLedge : ℚ
  StackingLipTopChamfer : ℚ
  StackingLipBottomChamfer : ℚ
  MagnetHoles : Bool
  ScrewHoles : Bool
  MagnetHolesShape : HoleShape
  MagnetHoleDiameter : ℚ
  MagnetHoleDepth : ℚ
  MagnetHoleDistanceFromEdge : ℚ
  MagnetEdgeThickness : ℚ
  BaseplateTopLedgeWidth : ℚ
  SmallFillet : ℚ
  ScrewHoleDiameter : ℚ
  ScrewHoleDepth : ℚ
  SequentialBridgingLayerHeight : ℚ
  LabelShelfStyle : ShelfStyle
  LabelShelfPlacement : ShelfPlacement
  LabelShelfAngle : ℚ
  LabelShelfLength : ℚ
  LabelShelfWidth : ℚ
  LabelShelfVerticalThickness : ℚ
  LabelShelfStackingOffset : ℚ
  StackingLip : Bool
  StackingLipVerticalSection : ℚ
  InsideFilletRadius : ℚ
  yDividerHeight : ℚ
  BaseWallThickness : ℚ
  BaseProfileHeight : ℚ

/-- Primitive solid-construction kernel calls issued by the module.  Each
constructor records the numeric arguments the code hands to the host kernel.
Blocks of pure plane-geometry construction whose inner structure no claim
inspects (the baseplate per-cell cutout profile of lines 850-909, the scoop
profile sweep, and the square bridging solids of a magnet/screw cell) are
carried as single composite primitives parameterised by exactly the document
properties they consume. -/
inductive Prim where
  /-- `rounded_rectangle_chamfer(xwidth, ywidth, zsketchplane, height, radius)`:
  a loft between two rounded rectangles. -/
  | chamfer (xwidth ywidth zsketchplane height radius : ℚ)
  /-- `rounded_rectangle_extrude(xwidth, ywidth, zsketchplane, height, radius)`. -/
  | extrudeRect (xwidth ywidth zsketchplane height radius : ℚ)
  /-- `Part.makeCylinder(radius, height, pos, FreeCAD.Vector(0,0,1))`. -/
  | cylinder (radius height : ℚ) (pos : Vec3)
  /-- A `Part::RegularPolygon` hexagon of the given circumscribed-circle
  radius placed at `pos`, extruded upward by `depth`
  (`f.extrude(FreeCAD.Vector(0, 0, obj.MagnetHoleDepth))`). -/
  | hexPrism (circumradius depth : ℚ) (pos : Vec3)
  /-- `Part.makeBox(length, width, height, pos, dir)`. -/
  | box (length width height : ℚ) (pos dir : Vec3)
  /-- The whole per-cell baseplate center cutout solid of
  `make_baseplate_center_cut` lines 850-909 (wire of lines and arcs, face,
  extrusion by `-TotalHeight`, fused with its three mirror images), recorded
  with the document properties those lines consume. -/
  | baseplateCutProfile (gridSize baseProfileTopChamfer baseProfileBottomChamfer
      baseplateTopLedgeWidth magnetHoleDistanceFromEdge magnetHoleDiameter
      magnetEdgeThickness smallFillet totalHeight : ℚ)
  /-- The scoop profile face (two line segments and an arc of radius
  `scooprad`) extruded along y by `yTotalWidth - 2*WallThickness`
  (`make_scoop` lines 452-516). -/
  | scoopSweep (xEnd usableHeight scooprad ylen : ℚ)
  /-- The four sequential-bridging faces `sq1_1 .. sq1_4` of a magnet/screw
  cell, extruded by `sqbr1_depth` (`make_bottom_holes` lines 1222-1391),
  recorded with the document properties those lines consume. -/
  | squareBridgeFaces (gridSize magnetHoleDistanceFromEdge magnetHoleDiameter
      screwHoleDiameter sqbr1Depth totalHeight : ℚ)
  /-- The stacking-lip solid of `make_stacking_lip` (lines 558-647): the
  nine-segment lip profile swept along the outer rounded rectangle, recorded
  with the document properties those lines consume. -/
  | stackingLipSweep (xTotalWidth yTotalWidth binUnit binOuterRadius
      wallThickness stackingLipTopLedge stackingLipTopChamfer
      stackingLipBottomChamfer stackingLipVerticalSection : ℚ)
  /-- The whole eco-bin cutout of `make_eco_bin_cut` (lines 1412-1638),
  recorded with the document properties those lines consume. -/
  | ecoBinCut (xTotalWidth yTotalWidth binUnit binOuterRadius wallThickness
      totalHeight baseProfileHeight baseWallThickness baseProfileTopChamfer
      baseProfileBottomChamfer baseProfileVerticalSection binVerticalRadius
      magnetHoleDepth insideFilletRadius dividerThickness xDividerHeight
      yDividerHeight gridSize : ℚ) (xDividers yDividers xGridUnits yGridUnits : ℕ)
      (magnetHoles : Bool)
  /-- The label-shelf solid of `make_label_shelf` (lines 313-414), recorded
  with the effective shelf angle and placement actually used (after the
  `Overhang` and length overrides) and the document properties the
  construction consumes. -/
  | labelShelf (angle : ℚ) (placement : ShelfPlacement)
      (xTotalWidth yTotalWidth binUnit wallThickness dividerThickness
        labelShelfWidth labelShelfLength labelShelfVerticalThickness
        stackingOffset usableHeight : ℚ) (xDividers yDividers : ℕ)
deriving DecidableEq, Repr

/-- Syntax tree of composite kernel operations on solids. -/
inductive Shape where
  | prim (p : Prim)
  | fuse (a b : Shape)
  | cut (a b : Shape)
  /-- `makeFillet(radius, edges)`; the host-side edge selection (filtering
  `shape.Edges` by vertex coordinates) lives in kernel data we do not model,
  so only the fillet radius is recorded. -/
  | fillet (radius : ℚ) (s : Shape)
  | translated (v : Vec3) (s : Shape)
deriving DecidableEq, Repr

/-- `Part.Solid.multiFuse(a, l)`: fuse `a` with every solid in `l`. -/
def Shape.mfuse (a : Shape) (l : List Shape) : Shape :=
  l.foldl Shape.fuse a

/-- The primitive solids contained in a shape, each with the total translation
applied to it.  `cut` keeps both operands: its second argument's primitives
are still kernel calls that were issued. -/
def placements : Shape → List (Prim × Vec3)
  | .prim p => [(p, (0, 0, 0))]
  | .fuse a b => placements a ++ placements b
  | .cut a b => placements a ++ placements b
  | .fillet _ s => placements s
  | .translated v s => (placements s).map fun q => (q.1, q.2 + v)

/-- The primitive kernel calls issued while building a shape. -/
def primsOf (s : Shape) : List Prim :=
  (placements s).map Prod.fst

/-- Placements of an optional shape (`None` in Python holds no solid). -/
def primsO : Option Shape → List (Prim × Vec3)
  | none => []
  | some s => placements s

/-- `assembly1 = assembly if assembly1 is None else assembly1.fuse(assembly)`:
the accumulator update used by every grid loop of the module. -/
def optFuse : Option Shape → Shape → Shape
  | none, s => s
  | some a, s => .fuse a s

/-- One pass of the inner (`yGridUnits`) loop shared by `make_bin_base` and
the three hole loops of `make_bottom_holes`: starting from accumulator `a1`
and `ytranslate = yt`, fuse in one copy of `cell` translated by
`(xt, yt + j*G, 0)` for each of the `n` iterations.  The accumulator is NOT
reset between outer iterations, exactly as in the source. -/
def gridRow (cell : Shape) (G xt : ℚ) : ℕ → Option Shape → ℚ → Option Shape
  | 0, a1, _ => a1
  | n + 1, a1, yt =>
      gridRow cell G xt n (some (optFuse a1 (.translated (xt, yt, 0) cell))) (yt + G)

/-- `assembly2 = assembly1 if assembly2 is None else assembly2.fuse(assembly1)`:
the outer accumulator update.  The `some b, none` case is unreachable for
`ny ≥ 1` (a row always returns a shape); in Python it would raise, which we
record as `none`. -/
def fusePrefix : Option Shape → Option Shape → Option Shape
  | none, a => a
  | some b, some x => some (.fuse b x)
  | some _, none => none

/-- The outer (`xGridUnits`) loop shared by the same functions. -/
def gridAccumAux (cell : Shape) (G : ℚ) :
    ℕ → ℕ → Option Shape → Option Shape → ℚ → Option Shape
  | 0, _, _, a2, _ => a2
  | n + 1, ny, a1, a2, xt =>
      let a1' := gridRow cell G xt ny a1 0
      gridAccumAux cell G n ny a1' (fusePrefix a2 a1') (xt + G)

/-- The full doubly nested grid loop: place `cell` at `(i*G, j*G, 0)` for
`i < nx`, `j < ny`, with the accumulation pattern of the source. -/
def gridAccum (cell : Shape) (G : ℚ) (nx ny : ℕ) : Option Shape :=
  gridAccumAux cell G nx ny none none 0

/-- The per-grid-cell base unit of `make_bin_base` (lines 795-827): bottom
chamfer loft, vertical extrusion, top chamfer loft, fused sequentially.  The
source computes `vertical_section` and the first fuse twice (lines 803-818);
the duplication is mirrored by the shadowed bindings. -/
def binBaseCell (o : Obj) : Shape :=
  let bt_cmf_width :=
    o.BinUnit - 2 * o.BaseProfileBottomChamfer - 2 * o.BaseProfileTopChamfer
  let vert_width := o.BinUnit - 2 * o.BaseProfileTopChamfer
  let bottom_chamfer : Shape :=
    .prim (.chamfer bt_cmf_width bt_cmf_width (-o.TotalHeight)
      o.BaseProfileBottomChamfer o.BinBottomRadius)
  let vertical_section : Shape :=
    .prim (.extrudeRect vert_width vert_width
      (-o.TotalHeight + o.BaseProfileBottomChamfer)
      o.BaseProfileVerticalSection o.BinVerticalRadius)
  let assembly := Shape.fuse bottom_chamfer vertical_section
  let vertical_section : Shape :=
    .prim (.extrudeRect vert_width vert_width
      (-o.TotalHeight + o.BaseProfileBottomChamfer)
      o.BaseProfileVerticalSection o.BinVerticalRadius)
  let assembly := Shape.fuse bottom_chamfer vertical_section
  let top_chamfer : Shape :=
    .prim (.chamfer vert_width vert_width
      (-o.TotalHeight + o.BaseProfileBottomChamfer + o.BaseProfileVerticalSection)
      o.BaseProfileTopChamfer o.BinVerticalRadius)
  Shape.fuse assembly top_chamfer

/-- `make_bin_base(obj)` (lines 775-837): the nested grid loop over the base
cell.  Returns `none` exactly when Python would return `None`
(`assembly2` never assigned, i.e. `xGridUnits = 0`). -/
def make_bin_base (o : Obj) : Option Shape :=
  gridAccum (binBaseCell o) o.GridSize o.xGridUnits o.yGridUnits

/-- Translate every placement of a list by `v`. -/
def shiftP (L : List (Prim × Vec3)) (v : Vec3) : List (Prim × Vec3) :=
  L.map fun q => (q.1, q.2 + v)

/-- The placements contributed by one row of a grid loop, in source order. -/
def rowCells (cell : Shape) (G xt : ℚ) : ℕ → ℚ → List (Prim × Vec3)
  | 0, _ => []
  | n + 1, yt => shiftP (placements cell) (xt, yt, 0) ++ rowCells cell G xt n (yt + G)

/-- The placements contributed by all rows of a grid loop. -/
def gridCells (cell : Shape) (G : ℚ) : ℕ → ℕ → ℚ → List (Prim × Vec3)
  | 0, _, _ => []
  | n + 1, ny, xt => rowCells cell G xt ny 0 ++ gridCells cell G n ny (xt + G)

theorem mem_shiftP {L : List (Prim × Vec3)} {v : Vec3} {t : Prim × Vec3} :
    t ∈ shiftP L v ↔ ∃ q ∈ L, (q.1, q.2 + v) = t := by
  simp [shiftP, List.mem_map]

theorem mem_shiftP_congr {L : List (Prim × Vec3)} {t : Prim × Vec3} {v w : Vec3}
    (h : v = w) : t ∈ shiftP L v ↔ t ∈ shiftP L w := by rw [h]

theorem primsO_gridRow (cell : Shape) (G xt : ℚ) :
    ∀ (n : ℕ) (a1 : Option Shape) (yt : ℚ),
      primsO (gridRow cell G xt n a1 yt) = primsO a1 ++ rowCells cell G xt n yt := by
  intro n
  induction n with
  | zero => intro a1 yt; simp [gridRow, rowCells]
  | succ n ih =>
    intro a1 yt
    rw [gridRow, ih, rowCells]
    cases a1 with
    | none => simp [primsO, optFuse, placements, shiftP]
    | some a => simp [primsO, optFuse, placements, shiftP]

theorem gridRow_eq_none_iff (cell : Shape) (G xt : ℚ) :
    ∀ (n : ℕ) (a1 : Option Shape) (yt : ℚ),
      gridRow cell G xt n a1 yt = none ↔ n = 0 ∧ a1 = none := by
  intro n
  induction n with
  | zero => intro a1 yt; simp [gridRow]
  | succ n ih => intro a1 yt; simp [gridRow, ih]

theorem mem_rowCells (cell : Shape) (G xt : ℚ) :
    ∀ (n : ℕ) (yt : ℚ) (t : Prim × Vec3),
      t ∈ rowCells cell G xt n yt ↔
        ∃ j < n, t ∈ shiftP (placements cell) (xt, yt + (j : ℚ) * G, 0) := by
  intro n
  induction n with
  | zero => intro yt t; simp [rowCells]
  | succ n ih =>
    intro yt t
    rw [rowCells, List.mem_append, ih]
    constructor
    · rintro (h | ⟨j, hj, hmem⟩)
      · exact ⟨0, Nat.succ_pos n,
          (mem_shiftP_congr (by norm_num)).mp h⟩
      · refine ⟨j + 1, Nat.succ_lt_succ hj, ?_⟩
        refine (mem_shiftP_congr (v := (xt, yt + G + (j : ℚ) * G, 0)) ?_).mp hmem
        have : yt + G + (j : ℚ) * G = yt + ((j : ℚ) + 1) * G := by ring
        simp [this]
    · rintro ⟨j, hj, hmem⟩
      match j with
      | 0 =>
        exact Or.inl ((mem_shiftP_congr (by norm_num)).mp hmem)
      | j + 1 =>
        refine Or.inr ⟨j, Nat.lt_of_succ_lt_succ hj, ?_⟩
        refine (mem_shiftP_congr ?_).mp hmem
        have : yt + ((j : ℚ) + 1) * G = yt + G + (j : ℚ) * G := by ring
        push_cast
        simp [this]

theorem mem_gridCells (cell : Shape) (G : ℚ) (ny : ℕ) :
    ∀ (n : ℕ) (xt : ℚ) (t : Prim × Vec3),
      t ∈ gridCells cell G n ny xt ↔
        ∃ i < n, ∃ j < ny,
          t ∈ shiftP (placements cell) (xt + (i : ℚ) * G, (j : ℚ) * G, 0) := by
  intro n
  induction n with
  | zero => intro xt t; simp [gridCells]
  | succ n ih =>
    intro xt t
    rw [gridCells, List.mem_append, ih, mem_rowCells]
    constructor
    · rintro (⟨j, hj, hmem⟩ | ⟨i, hi, j, hj, hmem⟩)
      · refine ⟨0, Nat.succ_pos n, j, hj, ?_⟩
        refine (mem_shiftP_congr ?_).mp hmem
        norm_num
      · refine ⟨i + 1, Nat.succ_lt_succ hi, j, hj, ?_⟩
        refine (mem_shiftP_congr ?_).mp hmem
        have : xt + G + (i : ℚ) * G = xt + ((i : ℚ) + 1) * G := by ring
        push_cast
        simp [this]
    · rintro ⟨i, hi, j, hj, hmem⟩
      match i with
      | 0 =>
        refine Or.inl ⟨j, hj, ?_⟩
        refine (mem_shiftP_congr ?_).mp hmem
        norm_num
      | i + 1 =>
        refine Or.inr ⟨i, Nat.lt_of_succ_lt_succ hi, j, hj, ?_⟩
        refine (mem_shiftP_congr ?_).mp hmem
        have : xt + ((i : ℚ) + 1) * G = xt + G + (i : ℚ) * G := by ring
        push_cast
        simp [this]

theorem gridAccumAux_zero (cell : Shape) (G : ℚ) (ny : ℕ) (a1 a2 : Option Shape)
    (xt : ℚ) : gridAccumAux cell G 0 ny a1 a2 xt = a2 := rfl

theorem gridAccumAux_succ (cell : Shape) (G : ℚ) (n ny : ℕ) (a1 a2 : Option Shape)
    (xt : ℚ) :
    gridAccumAux cell G (n + 1) ny a1 a2 xt =
      gridAccumAux cell G n ny (gridRow cell G xt ny a1 0)
        (fusePrefix a2 (gridRow cell G xt ny a1 0)) (xt + G) := rfl

theorem primsO_gridAccumAux_mem (cell : Shape) (G : ℚ) (ny : ℕ) (hy : 1 ≤ ny) :
    ∀ (n : ℕ) (a1 a2 : Option Shape) (xt : ℚ) (t : Prim × Vec3),
      t ∈ primsO (gridAccumAux cell G (n + 1) ny a1 a2 xt) ↔
        t ∈ primsO a2 ∨ t ∈ primsO a1 ∨ t ∈ gridCells cell G (n + 1) ny xt := by
  intro n
  induction n with
  | zero =>
    intro a1 a2 xt t
    have hrow : gridRow cell G xt ny a1 0 ≠ none := by
      intro h
      rw [gridRow_eq_none_iff] at h
      omega
    rcases h1 : gridRow cell G xt ny a1 0 with - | x
    · exact absurd h1 hrow
    · have hx : placements x = primsO a1 ++ rowCells cell G xt ny 0 := by
        have := primsO_gridRow cell G xt ny a1 0
        rw [h1] at this
        exact this
      rw [gridAccumAux_succ, h1, gridAccumAux_zero]
      cases a2 with
      | none =>
        simp only [fusePrefix]
        rw [show primsO (some x) = placements x from rfl, hx]
        simp [gridCells, primsO, List.mem_append]
      | some b =>
        simp only [fusePrefix]
        rw [show primsO (some (Shape.fuse b x)) = placements b ++ placements x from rfl,
          hx]
        simp [gridCells, primsO, List.mem_append, or_assoc]
  | succ n ih =>
    intro a1 a2 xt t
    have hrow : gridRow cell G xt ny a1 0 ≠ none := by
      intro h
      rw [gridRow_eq_none_iff] at h
      omega
    rcases h1 : gridRow cell G xt ny a1 0 with - | x
    · exact absurd h1 hrow
    · have hx : placements x = primsO a1 ++ rowCells cell G xt ny 0 := by
        have := primsO_gridRow cell G xt ny a1 0
        rw [h1] at this
        exact this
      rw [gridAccumAux_succ, h1]
      have hsplit : gridCells cell G (n + 1 + 1) ny xt =
          rowCells cell G xt ny 0 ++ gridCells cell G (n + 1) ny (xt + G) := rfl
      cases a2 with
      | none =>
        simp only [fusePrefix, ih]
        rw [show primsO (some x) = placements x from rfl, hx, hsplit]
        simp only [primsO, List.not_mem_nil, false_or, List.mem_append]
        tauto
      | some b =>
        simp only [fusePrefix, ih]
        rw [show primsO (some (Shape.fuse b x)) = placements b ++ placements x from rfl,
          show primsO (some x) = placements x from rfl, hx, hsplit]
        simp only [primsO, List.mem_append]
        tauto

/-- Membership characterisation of the whole doubly nested grid loop. -/
theorem primsO_gridAccum_mem (cell : Shape) (G : ℚ) (nx ny : ℕ)
    (hx : 1 ≤ nx) (hy : 1 ≤ ny) (t : Prim × Vec3) :
    t ∈ primsO (gridAccum cell G nx ny) ↔
      ∃ i < nx, ∃ j < ny,
        t ∈ shiftP (placements cell) ((i : ℚ) * G, (j : ℚ) * G, 0) := by
  obtain ⟨n, rfl⟩ : ∃ n, nx = n + 1 := ⟨nx - 1, by omega⟩
  rw [gridAccum, primsO_gridAccumAux_mem cell G ny hy n none none 0 t]
  simp only [primsO, List.not_mem_nil, false_or]
  rw [mem_gridCells]
  constructor
  · rintro ⟨i, hi, j, hj, hmem⟩
    exact ⟨i, hi, j, hj, (mem_shiftP_congr (by norm_num)).mp hmem⟩
  · rintro ⟨i, hi, j, hj, hmem⟩
    exact ⟨i, hi, j, hj, (mem_shiftP_congr (by norm_num)).mp hmem⟩

/-- Modelled from the spec: `Utils.copy_and_translate` comes from the
repository's `utils` module, which is not among the provided sources.  Per its
name and its uses throughout `feature_construction.py` (the result of
`copy_and_translate(shape, vec_list)` is one solid combining a copy of `shape`
at each listed translation, subsequently fused/cut like any other solid), it
fuses copies of the shape translated by each vector of the list. -/
def copy_and_translate (s : Shape) : List Vec3 → Shape
  | [] => s
  | v :: vs => vs.foldl (fun acc w => Shape.fuse acc (.translated w s)) (.translated v s)

theorem placements_translated (v : Vec3) (s : Shape) :
    placements (.translated v s) = shiftP (placements s) v := rfl

theorem mem_placements_copy_fold (s : Shape) (t : Prim × Vec3) :
    ∀ (vs : List Vec3) (acc : Shape),
      t ∈ placements (vs.foldl (fun acc w => Shape.fuse acc (.translated w s)) acc) ↔
        t ∈ placements acc ∨ ∃ w ∈ vs, t ∈ shiftP (placements s) w := by
  intro vs
  induction vs with
  | nil => intro acc; simp
  | cons v vs ih =>
    intro acc
    rw [List.foldl_cons, ih]
    simp only [placements, List.mem_append, placements_translated, List.mem_cons]
    constructor
    · rintro ((h | h) | ⟨w, hw, h⟩)
      · exact Or.inl h
      · exact Or.inr ⟨v, Or.inl rfl, h⟩
      · exact Or.inr ⟨w, Or.inr hw, h⟩
    · rintro (h | ⟨w, hw | hw, h⟩)
      · exact Or.inl (Or.inl h)
      · exact Or.inl (Or.inr (hw ▸ h))
      · exact Or.inr ⟨w, hw, h⟩

theorem mem_placements_copy_and_translate (s : Shape) (v : Vec3) (vs : List Vec3)
    (t : Prim × Vec3) :
    t ∈ placements (copy_and_translate s (v :: vs)) ↔
      ∃ w ∈ v :: vs, t ∈ shiftP (placements s) w := by
  rw [copy_and_translate, mem_placements_copy_fold]
  simp only [placements_translated, List.mem_cons]
  constructor
  · rintro (h | ⟨w, hw, h⟩)
    · exact ⟨v, Or.inl rfl, h⟩
    · exact ⟨w, Or.inr hw, h⟩
  · rintro ⟨w, hw | hw, h⟩
    · exact Or.inl (hw ▸ h)
    · exact Or.inr ⟨w, hw, h⟩

/-- One row of the translation-vector list of `make_baseplate_center_cut`
(lines 915-920). -/
def ccRow (G xt : ℚ) : ℕ → ℚ → List Vec3
  | 0, _ => []
  | n + 1, yt => (xt, yt, 0) :: ccRow G xt n (yt + G)

/-- All rows of the translation-vector list of `make_baseplate_center_cut`. -/
def ccGrid (G : ℚ) : ℕ → ℕ → ℚ → List Vec3
  | 0, _, _ => []
  | n + 1, ny, xt => ccRow G xt ny 0 ++ ccGrid G n ny (xt + G)

/-- The `vec_list` built by `make_baseplate_center_cut` lines 911-920. -/
def centerCutVecList (o : Obj) : List Vec3 :=
  ccGrid o.GridSize o.xGridUnits o.yGridUnits 0

theorem mem_ccRow (G xt : ℚ) :
    ∀ (n : ℕ) (yt : ℚ) (v : Vec3),
      v ∈ ccRow G xt n yt ↔ ∃ j < n, v = (xt, yt + (j : ℚ) * G, 0) := by
  intro n
  induction n with
  | zero => intro yt v; simp [ccRow]
  | succ n ih =>
    intro yt v
    rw [ccRow, List.mem_cons, ih]
    constructor
    · rintro (h | ⟨j, hj, h⟩)
      · exact ⟨0, Nat.succ_pos n, by simp [h]⟩
      · refine ⟨j + 1, Nat.succ_lt_succ hj, ?_⟩
        rw [h]
        have : yt + G + (j : ℚ) * G = yt + ((j : ℚ) + 1) * G := by ring
        push_cast
        simp [this]
    · rintro ⟨j, hj, h⟩
      match j with
      | 0 => exact Or.inl (by simpa using h)
      | j + 1 =>
        refine Or.inr ⟨j, Nat.lt_of_succ_lt_succ hj, ?_⟩
        rw [h]
        have : yt + ((j : ℚ) + 1) * G = yt + G + (j : ℚ) * G := by ring
        push_cast
        simp [this]

theorem mem_ccGrid (G : ℚ) (ny : ℕ) :
    ∀ (n : ℕ) (xt : ℚ) (v : Vec3),
      v ∈ ccGrid G n ny xt ↔
        ∃ i < n, ∃ j < ny, v = (xt + (i : ℚ) * G, (j : ℚ) * G, 0) := by
  intro n
  induction n with
  | zero => intro xt v; simp [ccGrid]
  | succ n ih =>
    intro xt v
    rw [ccGrid, List.mem_append, mem_ccRow, ih]
    constructor
    · rintro (⟨j, hj, h⟩ | ⟨i, hi, j, hj, h⟩)
      · exact ⟨0, Nat.succ_pos n, j, hj, by simpa using h⟩
      · refine ⟨i + 1, Nat.succ_lt_succ hi, j, hj, ?_⟩
        rw [h]
        have : xt + G + (i : ℚ) * G = xt + ((i : ℚ) + 1) * G := by ring
        push_cast
        simp [this]
    · rintro ⟨i, hi, j, hj, h⟩
      match i with
      | 0 => exact Or.inl ⟨j, hj, by simpa using h⟩
      | i + 1 =>
        refine Or.inr ⟨i, Nat.lt_of_succ_lt_succ hi, j, hj, ?_⟩
        rw [h]
        have : xt + ((i : ℚ) + 1) * G = xt + G + (i : ℚ) * G := by ring
        push_cast
        simp [this]

/-- The per-cell baseplate cutout solid built by lines 850-909 of
`make_baseplate_center_cut`, as a composite primitive over the document
properties those lines consume. -/
def baseplateCutCell (o : Obj) : Shape :=
  .prim (.baseplateCutProfile o.GridSize o.BaseProfileTopChamfer
    o.BaseProfileBottomChamfer o.BaseplateTopLedgeWidth
    o.MagnetHoleDistanceFromEdge o.MagnetHoleDiameter o.MagnetEdgeThickness
    o.SmallFillet o.TotalHeight)

/-- `make_baseplate_center_cut(obj)` (lines 840-922): build the per-cell
cutout, then `Utils.copy_and_translate(shape, vec_list)` over the grid. -/
def make_baseplate_center_cut (o : Obj) : Shape :=
  copy_and_translate (baseplateCutCell o) (centerCutVecList o)

theorem ccRow_ne_nil (G xt : ℚ) (n : ℕ) (yt : ℚ) (hn : 1 ≤ n) :
    ccRow G xt n yt ≠ [] := by
  match n with
  | m + 1 => simp [ccRow]

theorem centerCutVecList_ne_nil (o : Obj) (hx : 1 ≤ o.xGridUnits)
    (hy : 1 ≤ o.yGridUnits) : centerCutVecList o ≠ [] := by
  rw [centerCutVecList]
  match h : o.xGridUnits, hx with
  | m + 1, _ =>
    rw [ccGrid]
    intro hnil
    exact ccRow_ne_nil o.GridSize 0 o.yGridUnits 0 hy (List.append_eq_nil.mp hnil).1

/-- C1: `make_bin_base` returns the fused union, over `i < xGridUnits` and
`j < yGridUnits`, of one base-profile solid (the three primitives of
`binBaseCell`) translated by `(i*GridSize, j*GridSize, 0)`, and
`make_baseplate_center_cut` places its per-cell cutout solid at exactly the
same translations `(i*GridSize, j*GridSize, 0)`; with the grid specification's
`GridSize` of 42 mm the copies are therefore spaced 42 mm apart in x and y. -/
theorem make_bin_base_grid_placement (o : Obj)
    (hx : 1 ≤ o.xGridUnits) (hy : 1 ≤ o.yGridUnits) :
    (∀ p v, (p, v) ∈ primsO (make_bin_base o) ↔
        p ∈ primsOf (binBaseCell o) ∧
          ∃ i < o.xGridUnits, ∃ j < o.yGridUnits,
            v = ((i : ℚ) * o.GridSize, (j : ℚ) * o.GridSize, 0)) ∧
    (∀ p v, (p, v) ∈ placements (make_baseplate_center_cut o) ↔
        p ∈ primsOf (baseplateCutCell o) ∧
          ∃ i < o.xGridUnits, ∃ j < o.yGridUnits,
            v = ((i : ℚ) * o.GridSize, (j : ℚ) * o.GridSize, 0)) := by
  constructor
  · intro p v
    rw [make_bin_base, primsO_gridAccum_mem _ _ _ _ hx hy]
    constructor
    · rintro ⟨i, hi, j, hj, hmem⟩
      rw [mem_shiftP] at hmem
      obtain ⟨q, hq, heq⟩ := hmem
      simp only [binBaseCell, placements, List.mem_append, List.mem_singleton] at hq
      rcases hq with (hq | hq) | hq <;>
        (rw [hq] at heq; refine ⟨?_, i, hi, j, hj, ?_⟩ <;>
          simp_all [primsOf, binBaseCell, placements, Prod.ext_iff])
    · rintro ⟨hp, i, hi, j, hj, hv⟩
      refine ⟨i, hi, j, hj, ?_⟩
      rw [mem_shiftP]
      simp only [primsOf, binBaseCell, placements, List.map_append, List.map_cons,
        List.map_nil, List.mem_append, List.mem_cons, List.not_mem_nil,
        or_false] at hp
      subst hv
      refine ⟨(p, (0, 0, 0)), ?_, by simp [Prod.ext_iff]⟩
      rcases hp with (hp | hp) | hp <;> subst hp <;>
        simp [binBaseCell, placements]
  · intro p v
    obtain ⟨w, ws, hvl⟩ : ∃ w ws, centerCutVecList o = w :: ws := by
      rcases h : centerCutVecList o with - | ⟨w, ws⟩
      · exact absurd h (centerCutVecList_ne_nil o hx hy)
      · exact ⟨w, ws, rfl⟩
    rw [make_baseplate_center_cut, hvl, mem_placements_copy_and_translate]
    have hcc : ∀ u : Vec3, u ∈ w :: ws ↔
        ∃ i < o.xGridUnits, ∃ j < o.yGridUnits,
          u = ((i : ℚ) * o.GridSize, (j : ℚ) * o.GridSize, 0) := by
      intro u
      rw [← hvl, centerCutVecList, mem_ccGrid]
      constructor
      · rintro ⟨i, hi, j, hj, h⟩
        exact ⟨i, hi, j, hj, by simpa using h⟩
      · rintro ⟨i, hi, j, hj, h⟩
        exact ⟨i, hi, j, hj, by simpa using h⟩
    constructor
    · rintro ⟨u, hu, hmem⟩
      rw [mem_shiftP] at hmem
      obtain ⟨q, hq, heq⟩ := hmem
      simp only [baseplateCutCell, placements, List.mem_cons, List.not_mem_nil,
        or_false] at hq
      subst hq
      rw [Prod.mk.injEq] at heq
      obtain ⟨hp1, hv1⟩ := heq
      dsimp only at hp1 hv1
      obtain ⟨i, hi, j, hj, hu'⟩ := (hcc u).mp hu
      refine ⟨?_, i, hi, j, hj, ?_⟩
      · simp [primsOf, baseplateCutCell, placements, ← hp1]
      · rw [← hv1, hu']
        simp
    · rintro ⟨hp, i, hi, j, hj, hv⟩
      refine ⟨v, ?_, ?_⟩
      · exact (hcc v).mpr ⟨i, hi, j, hj, hv⟩
      · rw [mem_shiftP]
        simp only [primsOf, baseplateCutCell, placements, List.map_cons,
          List.map_nil, List.mem_cons, List.not_mem_nil, or_false] at hp
        refine ⟨(p, (0, 0, 0)), by simp [baseplateCutCell, placements, hp], ?_⟩
        simp [hv, Prod.ext_iff]

/-- C5: the per-grid-cell base unit of `make_bin_base` is the straight
sequential fuse `fuse(fuse(bottom_chamfer, vertical_section), top_chamfer)`
of a bottom chamfer loft of width
`BinUnit - 2*BaseProfileBottomChamfer - 2*BaseProfileTopChamfer` starting at
`z = -TotalHeight` with height `BaseProfileBottomChamfer` and radius
`BinBottomRadius`, a vertical extrusion of width
`BinUnit - 2*BaseProfileTopChamfer` starting at
`-TotalHeight + BaseProfileBottomChamfer` with height
`BaseProfileVerticalSection` and radius `BinVerticalRadius`, and a top chamfer
loft of that same width with height `BaseProfileTopChamfer` starting where the
vertical section ends. -/
theorem bin_base_cell_fuse_sequence (o : Obj) :
    binBaseCell o =
      Shape.fuse
        (Shape.fuse
          (Shape.prim (Prim.chamfer
            (o.BinUnit - 2 * o.BaseProfileBottomChamfer - 2 * o.BaseProfileTopChamfer)
            (o.BinUnit - 2 * o.BaseProfileBottomChamfer - 2 * o.BaseProfileTopChamfer)
            (-o.TotalHeight) o.BaseProfileBottomChamfer o.BinBottomRadius))
          (Shape.prim (Prim.extrudeRect
            (o.BinUnit - 2 * o.BaseProfileTopChamfer)
            (o.BinUnit - 2 * o.BaseProfileTopChamfer)
            (-o.TotalHeight + o.BaseProfileBottomChamfer)
            o.BaseProfileVerticalSection o.BinVerticalRadius)))
        (Shape.prim (Prim.chamfer
          (o.BinUnit - 2 * o.BaseProfileTopChamfer)
          (o.BinUnit - 2 * o.BaseProfileTopChamfer)
          (-o.TotalHeight + o.BaseProfileBottomChamfer + o.BaseProfileVerticalSection)
          o.BaseProfileTopChamfer o.BinVerticalRadius)) := rfl

/-- The per-compartment x width
`(xTotalWidth - WallThickness*2 - xDividers*DividerThickness) / (xDividers + 1)`
(`make_scoop` lines 431-433, also `xcompwidth` of `make_label_shelf`). -/
def xcompW (o : Obj) : ℚ :=
  (o.xTotalWidth - o.WallThickness * 2 - (o.xDividers : ℚ) * o.DividerThickness) /
    ((o.xDividers : ℚ) + 1)

/-- `make_scoop` lines 427-442: the three candidate radii `scooprad1`,
`scooprad2`, `scooprad3`, each initialised to `ScoopRadius + 1 mm` and
conditionally clamped.  The shadowed bindings mirror the source's sequential
reassignments. -/
def scoopRadii (o : Obj) : ℚ × ℚ × ℚ :=
  let scooprad1 := o.ScoopRadius + 1
  let scooprad2 := o.ScoopRadius + 1
  let scooprad3 := o.ScoopRadius + 1
  let xcomp_w := xcompW o
  let xdivscoop := o.xDividerHeight - o.HeightUnitValue
  let scooprad1 :=
    if o.ScoopRadius > xdivscoop ∧ o.xDividerHeight ≠ 0 then xdivscoop - 1
    else scooprad1
  let scooprad2 :=
    if o.ScoopRadius > xcomp_w ∧ 0 < o.xDividers then xcomp_w - 2
    else scooprad2
  let scooprad3 :=
    if o.ScoopRadius > o.UsableHeight ∧ o.UsableHeight > 0 then o.UsableHeight
    else scooprad3
  (scooprad1, scooprad2, scooprad3)

/-- `scooprad = min(obj.ScoopRadius, scooprad1, scooprad2, scooprad3)`
(line 444). -/
def scooprad (o : Obj) : ℚ :=
  min o.ScoopRadius
    (min (scoopRadii o).1 (min (scoopRadii o).2.1 (scoopRadii o).2.2))

/-- The `vec_list` loop of `make_scoop` (lines 518-533): one translation per
compartment, with the first iteration's `xtranslate` update differing from
the later ones. -/
def scoopVecListAux (o : Obj) (compwidth : ℚ) : ℕ → ℕ → ℚ → List Vec3
  | 0, _, _ => []
  | n + 1, x, xt =>
      (-xt, -o.BinUnit / 2 + o.WallThickness, 0) ::
        scoopVecListAux o compwidth n (x + 1)
          (if 0 < x then xt + compwidth + o.DividerThickness
           else
             xt + (o.WallThickness - o.StackingLipTopLedge - o.StackingLipTopChamfer -
               o.StackingLipBottomChamfer + compwidth + o.DividerThickness))

/-- The translations applied to the scoop profile (lines 489-533). -/
def scoopVecList (o : Obj) : List Vec3 :=
  let xtranslate :=
    0 - o.WallThickness + o.StackingLipTopLedge + o.StackingLipTopChamfer +
      o.StackingLipBottomChamfer
  let compwidth :=
    (o.xTotalWidth - o.WallThickness * 2 - o.DividerThickness * (o.xDividers : ℚ)) /
      ((o.xDividers : ℚ) + 1)
  scoopVecListAux o compwidth (o.xDividers + 1) 0 xtranslate

/-- The solid `make_scoop` builds once the radius check has passed
(lines 452-555): scoop profile sweep copies, fused with `scoopbox`, then
`makeFillet` with radius
`StackingLipBottomChamfer + StackingLipTopChamfer + StackingLipTopLedge -
WallThickness - 0.01 mm` over the host-selected edges. -/
def scoopShape (o : Obj) : Shape :=
  let profile : Shape := .prim (.scoopSweep
    (o.xTotalWidth - o.BinUnit / 2 - o.WallThickness)
    o.UsableHeight (scooprad o)
    (o.yTotalWidth - o.WallThickness * 2))
  let scoopbox : Shape := .prim (.box
    (o.StackingLipBottomChamfer + o.StackingLipTopChamfer + o.StackingLipTopLedge -
      o.WallThickness)
    (o.yTotalWidth - o.WallThickness * 2)
    o.UsableHeight
    (o.xTotalWidth - o.BinUnit / 2 - o.WallThickness,
      -o.BinUnit / 2 + o.WallThickness, 0)
    (0, 0, -1))
  let funcfuse := copy_and_translate profile (scoopVecList o)
  let funcfuse := Shape.fuse funcfuse scoopbox
  .fillet
    (o.StackingLipBottomChamfer + o.StackingLipTopChamfer + o.StackingLipTopLedge -
      o.WallThickness - 1 / 100)
    funcfuse

/-- `make_scoop(obj)` (lines 417-555).  The first component is the returned
value (`none` models Python's `None`); the second is the list of console
messages printed (`FreeCAD.Console.PrintMessage`). -/
def make_scoop (o : Obj) : Option Shape × List String :=
  if scooprad o ≤ 0 then
    (none, ["scooop could not be made due to bin selected parameters\n"])
  else
    (some (scoopShape o), [])

/-- C2: `make_scoop` fails by early-return sentinel, not by exception: the
returned value is `None` — with the console message printed and no
solid-construction kernel call issued — exactly when the clamped radius
`min(ScoopRadius, scooprad1, scooprad2, scooprad3)` is `≤ 0`, and is a shape
(not `None`) exactly when that minimum is positive. -/
theorem make_scoop_sentinel (o : Obj) :
    (scooprad o =
      min o.ScoopRadius
        (min (scoopRadii o).1 (min (scoopRadii o).2.1 (scoopRadii o).2.2))) ∧
    ((make_scoop o).1 = none ↔ scooprad o ≤ 0) ∧
    ((make_scoop o).2 =
        ["scooop could not be made due to bin selected parameters\n"] ↔
      scooprad o ≤ 0) ∧
    ((make_scoop o).1.isSome ↔ 0 < scooprad o) := by
  refine ⟨rfl, ?_, ?_, ?_⟩ <;>
    · rw [make_scoop]
      by_cases h : scooprad o ≤ 0 <;> simp [h] <;> linarith

/-- C4: whenever `make_scoop` builds a shape, the radius it uses is clamped
against the available space: `scooprad ≤ ScoopRadius` always; under each of
the three overflow conditions, `scooprad` also respects the corresponding
clamp (`xDividerHeight - HeightUnitValue - 1 mm`, compartment width `- 2 mm`,
`UsableHeight`). -/
theorem make_scoop_radius_clamped (o : Obj) (h : (make_scoop o).1.isSome) :
    scooprad o ≤ o.ScoopRadius ∧
    (o.ScoopRadius > o.xDividerHeight - o.HeightUnitValue ∧ o.xDividerHeight ≠ 0 →
      scooprad o ≤ o.xDividerHeight - o.HeightUnitValue - 1) ∧
    (o.ScoopRadius > xcompW o ∧ 0 < o.xDividers →
      scooprad o ≤ xcompW o - 2) ∧
    (o.ScoopRadius > o.UsableHeight ∧ o.UsableHeight > 0 →
      scooprad o ≤ o.UsableHeight) := by
  have h1 : scooprad o ≤ o.ScoopRadius := min_le_left _ _
  have h2 : scooprad o ≤ (scoopRadii o).1 :=
    le_trans (min_le_right _ _) (min_le_left _ _)
  have h3 : scooprad o ≤ (scoopRadii o).2.1 :=
    le_trans (min_le_right _ _) (le_trans (min_le_right _ _) (min_le_left _ _))
  have h4 : scooprad o ≤ (scoopRadii o).2.2 :=
    le_trans (min_le_right _ _) (le_trans (min_le_right _ _) (min_le_right _ _))
  refine ⟨h1, ?_, ?_, ?_⟩
  · intro hc
    have : (scoopRadii o).1 = o.xDividerHeight - o.HeightUnitValue - 1 := by
      simp [scoopRadii, if_pos hc]
    linarith [h2, this.le, this.ge]
  · intro hc
    have : (scoopRadii o).2.1 = xcompW o - 2 := by
      simp [scoopRadii, if_pos hc]
    linarith [h3, this.le, this.ge]
  · intro hc
    have : (scoopRadii o).2.2 = o.UsableHeight := by
      simp [scoopRadii, if_pos hc]
    linarith [h4, this.le, this.ge]

/-- A concrete, fully populated document object used by the witnesses. -/
def testObj : Obj where
  xGridUnits := 2
  yGridUnits := 3
  GridSize := 42
  BinUnit := 40
  TotalHeight := 42
  UsableHeight := 35
  HeightUnitValue := 7
  BaseProfileBottomChamfer := 1
  BaseProfileTopChamfer := 2
  BaseProfileVerticalSection := 2
  BinBottomRadius := 2
  BinVerticalRadius := 1
  BinOuterRadius := 8
  xTotalWidth := 84
  yTotalWidth := 126
  WallThickness := 1
  DividerThickness := 1
  xDividers := 0
  yDividers := 0
  xDividerHeight := 0
  ScoopRadius := 5
  StackingLipTopLedge := 1
  StackingLipTopChamfer := 1
  StackingLipBottomChamfer := 1
  MagnetHoles := true
  ScrewHoles := true
  MagnetHolesShape := .Hex
  MagnetHoleDiameter := 6
  MagnetHoleDepth := 2
  MagnetHoleDistanceFromEdge := 8
  MagnetEdgeThickness := 1
  BaseplateTopLedgeWidth := 1
  SmallFillet := 1
  ScrewHoleDiameter := 3
  ScrewHoleDepth := 6
  SequentialBridgingLayerHeight := 1
  LabelShelfStyle := .Standard
  LabelShelfPlacement := .Center
  LabelShelfAngle := 45
  LabelShelfLength := 12
  LabelShelfWidth := 12
  LabelShelfVerticalThickness := 2
  LabelShelfStackingOffset := 1
  StackingLip := true
  StackingLipVerticalSection := 2
  InsideFilletRadius := 1
  yDividerHeight := 0
  BaseWallThickness := 1
  BaseProfileHeight := 5

theorem make_bin_base_grid_placement_witness :
    (Prim.cylinder 1 1 (0, 0, 0), ((0 : ℚ), (0 : ℚ), (0 : ℚ))) ∈
        primsO (make_bin_base testObj) ↔
      Prim.cylinder 1 1 (0, 0, 0) ∈ primsOf (binBaseCell testObj) ∧
        ∃ i < testObj.xGridUnits, ∃ j < testObj.yGridUnits,
          ((0 : ℚ), (0 : ℚ), (0 : ℚ)) =
            ((i : ℚ) * testObj.GridSize, (j : ℚ) * testObj.GridSize, 0) :=
  (make_bin_base_grid_placement testObj (by decide) (by decide)).1
    (Prim.cylinder 1 1 (0, 0, 0)) ((0 : ℚ), (0 : ℚ), (0 : ℚ))

theorem make_scoop_radius_clamped_witness :
    scooprad testObj ≤ testObj.ScoopRadius :=
  (make_scoop_radius_clamped testObj
    (by norm_num [make_scoop, scooprad, scoopRadii, xcompW, testObj, min_def])).1

/-- Python-level failures of `make_bottom_holes`: reading `fusetotal` when no
branch assigned it (`UnboundLocalError`), or fusing from a `None` receiver
(`TypeError`, unreachable when both grid-unit counts are positive). -/
inductive PyError where
  | unboundLocal
  | typeError
deriving DecidableEq, Repr

/-- The four magnet-hole hexagonal prisms of one grid cell, with circumradius
`r`, at positions `(±hole_pos, ±hole_pos, -TotalHeight)`. -/
def hexQuad (o : Obj) (r : ℚ) : Shape × Shape × Shape × Shape :=
  let hp := o.GridSize / 2 - o.MagnetHoleDistanceFromEdge
  (.prim (.hexPrism r o.MagnetHoleDepth (-hp, -hp, -o.TotalHeight)),
   .prim (.hexPrism r o.MagnetHoleDepth (hp, -hp, -o.TotalHeight)),
   .prim (.hexPrism r o.MagnetHoleDepth (-hp, hp, -o.TotalHeight)),
   .prim (.hexPrism r o.MagnetHoleDepth (hp, hp, -o.TotalHeight)))

/-- The four magnet-hole cylinders of one grid cell (non-hex branch), radius
`MagnetHoleDiameter / 2`, height `MagnetHoleDepth`. -/
def cylQuad (o : Obj) : Shape × Shape × Shape × Shape :=
  let hp := o.GridSize / 2 - o.MagnetHoleDistanceFromEdge
  (.prim (.cylinder (o.MagnetHoleDiameter / 2) o.MagnetHoleDepth (-hp, -hp, -o.TotalHeight)),
   .prim (.cylinder (o.MagnetHoleDiameter / 2) o.MagnetHoleDepth (hp, -hp, -o.TotalHeight)),
   .prim (.cylinder (o.MagnetHoleDiameter / 2) o.MagnetHoleDepth (-hp, hp, -o.TotalHeight)),
   .prim (.cylinder (o.MagnetHoleDiameter / 2) o.MagnetHoleDepth (hp, hp, -o.TotalHeight)))

/-- One magnet-hole grid cell of `make_bottom_holes` (lines 950-1111):
`c1..c4` are assigned by the first Hex/else block — with hex circumradius
`MagnetHoleDiameter / math.sqrt(3)`, the across-flats interpretation — and
then reassigned by the duplicated second Hex/else block with circumradius
`MagnetHoleDiameter / 2`; only the reassigned prisms reach
`hm1 = Part.Solid.multiFuse(c1, [c2, c3, c4])`.  `sqrt3` carries the host's
value of `math.sqrt(3)`; the shadowed binding mirrors the overwrite. -/
def magnetHoleCell (o : Obj) (sqrt3 : ℚ) : Shape :=
  let c :=
    if o.MagnetHolesShape = .Hex then hexQuad o (o.MagnetHoleDiameter / sqrt3)
    else cylQuad o
  let c :=
    if o.MagnetHolesShape = .Hex then hexQuad o (o.MagnetHoleDiameter / 2)
    else cylQuad o
  Shape.mfuse c.1 [c.2.1, c.2.2.1, c.2.2.2]

/-- One screw-hole grid cell of `make_bottom_holes` (lines 1130-1155):
four cylinders of radius `ScrewHoleDiameter / 2` and height `ScrewHoleDepth`,
multi-fused. -/
def screwHoleCell (o : Obj) : Shape :=
  let hp := o.GridSize / 2 - o.MagnetHoleDistanceFromEdge
  let cs1 : Shape :=
    .prim (.cylinder (o.ScrewHoleDiameter / 2) o.ScrewHoleDepth (-hp, -hp, -o.TotalHeight))
  let cs2 : Shape :=
    .prim (.cylinder (o.ScrewHoleDiameter / 2) o.ScrewHoleDepth (hp, -hp, -o.TotalHeight))
  let cs3 : Shape :=
    .prim (.cylinder (o.ScrewHoleDiameter / 2) o.ScrewHoleDepth (-hp, hp, -o.TotalHeight))
  let cs4 : Shape :=
    .prim (.cylinder (o.ScrewHoleDiameter / 2) o.ScrewHoleDepth (hp, hp, -o.TotalHeight))
  Shape.mfuse cs1 [cs2, cs3, cs4]

/-- One square-bridging grid cell of `make_bottom_holes` (lines 1173-1393):
the four boxes `b1..b4` of side `ScrewHoleDiameter` and depth `sqbr2_depth`,
multi-fused with the four bridging faces `sq1_1..sq1_4` extruded by
`sqbr1_depth` (carried as one composite primitive). -/
def bridgeCell (o : Obj) : Shape :=
  let sq_bridge2_pos :=
    -o.GridSize / 2 + o.MagnetHoleDistanceFromEdge + o.ScrewHoleDiameter / 2
  let boxlow :=
    -o.GridSize / 2 + o.MagnetHoleDistanceFromEdge - o.ScrewHoleDiameter / 2
  let sqbr1_depth := o.MagnetHoleDepth + o.SequentialBridgingLayerHeight
  let sqbr2_depth := o.MagnetHoleDepth + o.SequentialBridgingLayerHeight * 2
  let b1 : Shape := .prim (.box o.ScrewHoleDiameter o.ScrewHoleDiameter sqbr2_depth
    (-sq_bridge2_pos, -sq_bridge2_pos, -o.TotalHeight) (0, 0, 1))
  let b2 : Shape := .prim (.box o.ScrewHoleDiameter o.ScrewHoleDiameter sqbr2_depth
    (boxlow, -sq_bridge2_pos, -o.TotalHeight) (0, 0, 1))
  let b3 : Shape := .prim (.box o.ScrewHoleDiameter o.ScrewHoleDiameter sqbr2_depth
    (-sq_bridge2_pos, boxlow, -o.TotalHeight) (0, 0, 1))
  let b4 : Shape := .prim (.box o.ScrewHoleDiameter o.ScrewHoleDiameter sqbr2_depth
    (boxlow, boxlow, -o.TotalHeight) (0, 0, 1))
  let sqfaces : Shape := .prim (.squareBridgeFaces o.GridSize
    o.MagnetHoleDistanceFromEdge o.MagnetHoleDiameter o.ScrewHoleDiameter
    sqbr1_depth o.TotalHeight)
  Shape.mfuse sqfaces [b1, b2, b3, b4]

/-- `hm3` of `make_bottom_holes` (lines 941-1119): the magnet-hole grid
accumulation, still `None` when `MagnetHoles` is clear. -/
def magnetPart (o : Obj) (sqrt3 : ℚ) : Option Shape :=
  if o.MagnetHoles then
    gridAccum (magnetHoleCell o sqrt3) o.GridSize o.xGridUnits o.yGridUnits
  else none

/-- `hs3` of `make_bottom_holes` (lines 1121-1162): the screw-hole grid
accumulation, still `None` when `ScrewHoles` is clear. -/
def screwPart (o : Obj) : Option Shape :=
  if o.ScrewHoles then
    gridAccum (screwHoleCell o) o.GridSize o.xGridUnits o.yGridUnits
  else none

/-- `hsq3` of `make_bottom_holes` (lines 1164-1400): the square-bridging grid
accumulation, run only when both flags are set. -/
def bridgePart (o : Obj) : Option Shape :=
  if o.ScrewHoles && o.MagnetHoles then
    gridAccum (bridgeCell o) o.GridSize o.xGridUnits o.yGridUnits
  else none

/-- `make_bottom_holes(obj)` (lines 925-1409).  The three hole sets are
accumulated over the grid exactly as in `make_bin_base`; the final
`fusetotal` is only assigned when at least one of the flags is set, so with
both flags clear the `return fusetotal` raises `UnboundLocalError`. -/
def make_bottom_holes (o : Obj) (sqrt3 : ℚ) : Except PyError (Option Shape) :=
  if o.ScrewHoles && !o.MagnetHoles then .ok (screwPart o)
  else if o.MagnetHoles && !o.ScrewHoles then .ok (magnetPart o sqrt3)
  else if o.ScrewHoles && o.MagnetHoles then
    match magnetPart o sqrt3, screwPart o, bridgePart o with
    | some m, some s, some q => .ok (some (Shape.mfuse m [s, q]))
    | _, _, _ => .error .typeError
  else .error .unboundLocal

/-- The placements of the shape `make_bottom_holes` returns (empty when it
returns `None` or raises). -/
def bottomHolesPrims (o : Obj) (sqrt3 : ℚ) : List (Prim × Vec3) :=
  match make_bottom_holes o sqrt3 with
  | .ok (some s) => placements s
  | _ => []

theorem gridRow_ne_none (cell : Shape) (G xt : ℚ) (n : ℕ) (hn : 1 ≤ n)
    (a1 : Option Shape) (yt : ℚ) : gridRow cell G xt n a1 yt ≠ none := by
  intro h
  rw [gridRow_eq_none_iff] at h
  omega

theorem gridAccumAux_ne_none (cell : Shape) (G : ℚ) (ny : ℕ) (hy : 1 ≤ ny) :
    ∀ (n : ℕ) (a1 a2 : Option Shape) (xt : ℚ),
      gridAccumAux cell G (n + 1) ny a1 a2 xt ≠ none := by
  intro n
  induction n with
  | zero =>
    intro a1 a2 xt
    rcases h1 : gridRow cell G xt ny a1 0 with - | x
    · exact absurd h1 (gridRow_ne_none cell G xt ny hy a1 0)
    · rw [gridAccumAux_succ, h1, gridAccumAux_zero]
      cases a2 <;> simp [fusePrefix]
  | succ n ih =>
    intro a1 a2 xt
    rw [gridAccumAux_succ]
    exact ih _ _ _

theorem gridAccum_isSome (cell : Shape) (G : ℚ) (nx ny : ℕ)
    (hx : 1 ≤ nx) (hy : 1 ≤ ny) : ∃ s, gridAccum cell G nx ny = some s := by
  obtain ⟨n, rfl⟩ : ∃ n, nx = n + 1 := ⟨nx - 1, by omega⟩
  rcases h : gridAccum cell G (n + 1) ny with - | s
  · exact absurd h (gridAccumAux_ne_none cell G ny hy n none none 0)
  · exact ⟨s, rfl⟩

/-- C3: `make_bottom_holes` is only defined when at least one of the
`MagnetHoles` / `ScrewHoles` flags is true.  With both flags clear, no branch
assigns `fusetotal` and the function fails with an unbound-local error; with
exactly one flag set, the result is that flag's fused hole set; with both
set, it is the `multiFuse` of the magnet holes, the screw holes and the
square-bridging solids. -/
theorem make_bottom_holes_flag_cases (o : Obj) (s3 : ℚ)
    (hx : 1 ≤ o.xGridUnits) (hy : 1 ≤ o.yGridUnits) :
    (make_bottom_holes { o with MagnetHoles := false, ScrewHoles := false } s3 =
      .error .unboundLocal) ∧
    (make_bottom_holes { o with MagnetHoles := false, ScrewHoles := true } s3 =
      .ok (gridAccum (screwHoleCell o) o.GridSize o.xGridUnits o.yGridUnits)) ∧
    (make_bottom_holes { o with MagnetHoles := true, ScrewHoles := false } s3 =
      .ok (gridAccum (magnetHoleCell o s3) o.GridSize o.xGridUnits o.yGridUnits)) ∧
    (∃ m s q,
      gridAccum (magnetHoleCell o s3) o.GridSize o.xGridUnits o.yGridUnits = some m ∧
      gridAccum (screwHoleCell o) o.GridSize o.xGridUnits o.yGridUnits = some s ∧
      gridAccum (bridgeCell o) o.GridSize o.xGridUnits o.yGridUnits = some q ∧
      make_bottom_holes { o with MagnetHoles := true, ScrewHoles := true } s3 =
        .ok (some (Shape.mfuse m [s, q]))) := by
  obtain ⟨m, hm⟩ :=
    gridAccum_isSome (magnetHoleCell o s3) o.GridSize o.xGridUnits o.yGridUnits hx hy
  obtain ⟨s, hs⟩ :=
    gridAccum_isSome (screwHoleCell o) o.GridSize o.xGridUnits o.yGridUnits hx hy
  obtain ⟨q, hq⟩ :=
    gridAccum_isSome (bridgeCell o) o.GridSize o.xGridUnits o.yGridUnits hx hy
  refine ⟨rfl, rfl, rfl, m, s, q, hm, hs, hq, ?_⟩
  show (match
      gridAccum (magnetHoleCell o s3) o.GridSize o.xGridUnits o.yGridUnits,
      gridAccum (screwHoleCell o) o.GridSize o.xGridUnits o.yGridUnits,
      gridAccum (bridgeCell o) o.GridSize o.xGridUnits o.yGridUnits with
    | some m, some s, some q => Except.ok (some (Shape.mfuse m [s, q]))
    | _, _, _ => Except.error PyError.typeError) =
    Except.ok (some (Shape.mfuse m [s, q]))
  rw [hm, hs, hq]

theorem make_bottom_holes_flag_cases_witness :
    make_bottom_holes { testObj with MagnetHoles := false, ScrewHoles := false } 2 =
      .error .unboundLocal :=
  (make_bottom_holes_flag_cases testObj 2 (by decide) (by decide)).1

theorem mem_rowCells_fst {cell : Shape} {G xt : ℚ} {n : ℕ} {yt : ℚ}
    {t : Prim × Vec3} (h : t ∈ rowCells cell G xt n yt) : t.1 ∈ primsOf cell := by
  rw [mem_rowCells] at h
  obtain ⟨j, hj, hmem⟩ := h
  rw [mem_shiftP] at hmem
  obtain ⟨q, hq, heq⟩ := hmem
  rw [← heq]
  show q.1 ∈ primsOf cell
  exact List.mem_map_of_mem Prod.fst hq

theorem primsO_gridRow_fst {cell : Shape} {G xt : ℚ} {n : ℕ}
    {a1 : Option Shape} {yt : ℚ} {t : Prim × Vec3}
    (h : t ∈ primsO (gridRow cell G xt n a1 yt)) :
    t ∈ primsO a1 ∨ t.1 ∈ primsOf cell := by
  rw [primsO_gridRow, List.mem_append] at h
  exact h.imp id mem_rowCells_fst

theorem primsO_fusePrefix_mem {a2 a1' : Option Shape} {t : Prim × Vec3}
    (h : t ∈ primsO (fusePrefix a2 a1')) : t ∈ primsO a2 ∨ t ∈ primsO a1' := by
  cases a2 <;> cases a1' <;>
    simp_all [fusePrefix, primsO, placements, List.mem_append]

theorem primsO_gridAccumAux_fst (cell : Shape) (G : ℚ) :
    ∀ (n ny : ℕ) (a1 a2 : Option Shape) (xt : ℚ) (t : Prim × Vec3),
      t ∈ primsO (gridAccumAux cell G n ny a1 a2 xt) →
        t ∈ primsO a1 ∨ t ∈ primsO a2 ∨ t.1 ∈ primsOf cell := by
  intro n
  induction n with
  | zero =>
    intro ny a1 a2 xt t h
    rw [gridAccumAux_zero] at h
    exact Or.inr (Or.inl h)
  | succ n ih =>
    intro ny a1 a2 xt t h
    rw [gridAccumAux_succ] at h
    rcases ih ny _ _ _ t h with h1 | h2 | h3
    · rcases primsO_gridRow_fst h1 with h1a | h1b
      · exact Or.inl h1a
      · exact Or.inr (Or.inr h1b)
    · rcases primsO_fusePrefix_mem h2 with h2a | h2b
      · exact Or.inr (Or.inl h2a)
      · rcases primsO_gridRow_fst h2b with h2c | h2d
        · exact Or.inl h2c
        · exact Or.inr (Or.inr h2d)
    · exact Or.inr (Or.inr h3)

theorem primsO_gridAccum_fst {cell : Shape} {G : ℚ} {nx ny : ℕ}
    {t : Prim × Vec3} (h : t ∈ primsO (gridAccum cell G nx ny)) :
    t.1 ∈ primsOf cell := by
  rcases primsO_gridAccumAux_fst cell G nx ny none none 0 t h with h1 | h2 | h3
  · simp [primsO] at h1
  · simp [primsO] at h2
  · exact h3

theorem primsO_magnetPart_fst {o : Obj} {s3 : ℚ} {t : Prim × Vec3}
    (h : t ∈ primsO (magnetPart o s3)) : t.1 ∈ primsOf (magnetHoleCell o s3) := by
  rw [magnetPart] at h
  by_cases hm : o.MagnetHoles = true
  · rw [if_pos hm] at h
    exact primsO_gridAccum_fst h
  · rw [if_neg hm] at h
    simp [primsO] at h

theorem primsO_screwPart_fst {o : Obj} {t : Prim × Vec3}
    (h : t ∈ primsO (screwPart o)) : t.1 ∈ primsOf (screwHoleCell o) := by
  rw [screwPart] at h
  by_cases hs : o.ScrewHoles = true
  · rw [if_pos hs] at h
    exact primsO_gridAccum_fst h
  · rw [if_neg hs] at h
    simp [primsO] at h

theorem primsO_bridgePart_fst {o : Obj} {t : Prim × Vec3}
    (h : t ∈ primsO (bridgePart o)) : t.1 ∈ primsOf (bridgeCell o) := by
  rw [bridgePart] at h
  by_cases hs : (o.ScrewHoles && o.MagnetHoles) = true
  · rw [if_pos hs] at h
    exact primsO_gridAccum_fst h
  · rw [if_neg hs] at h
    simp [primsO] at h

/-- Every primitive in the shape `make_bottom_holes` returns comes from one of
the three hole cells. -/
theorem mem_bottomHolesPrims_cases (o : Obj) (s3 : ℚ) (t : Prim × Vec3)
    (h : t ∈ bottomHolesPrims o s3) :
    t.1 ∈ primsOf (magnetHoleCell o s3) ∨ t.1 ∈ primsOf (screwHoleCell o) ∨
      t.1 ∈ primsOf (bridgeCell o) := by
  rw [bottomHolesPrims, make_bottom_holes] at h
  by_cases h1 : (o.ScrewHoles && !o.MagnetHoles) = true
  · rw [if_pos h1] at h
    rcases hsp : screwPart o with - | sh
    · rw [hsp] at h
      have h' : t ∈ ([] : List (Prim × Vec3)) := h
      simp at h'
    · rw [hsp] at h
      have h' : t ∈ placements sh := h
      exact Or.inr (Or.inl (primsO_screwPart_fst (by rw [hsp]; exact h')))
  · rw [if_neg h1] at h
    by_cases h2 : (o.MagnetHoles && !o.ScrewHoles) = true
    · rw [if_pos h2] at h
      rcases hmp : magnetPart o s3 with - | mh
      · rw [hmp] at h
        have h' : t ∈ ([] : List (Prim × Vec3)) := h
        simp at h'
      · rw [hmp] at h
        have h' : t ∈ placements mh := h
        exact Or.inl (primsO_magnetPart_fst (by rw [hmp]; exact h'))
    · rw [if_neg h2] at h
      by_cases h3 : (o.ScrewHoles && o.MagnetHoles) = true
      · rw [if_pos h3] at h
        rcases hmp : magnetPart o s3 with - | m <;>
          rcases hsp : screwPart o with - | s <;>
          rcases hbp : bridgePart o with - | q <;>
          rw [hmp, hsp, hbp] at h
        all_goals
          first
            | (have h' : t ∈ ([] : List (Prim × Vec3)) := h; simp at h')
            | (have h' : t ∈ placements (Shape.mfuse m [s, q]) := h
               simp only [Shape.mfuse, List.foldl_cons, List.foldl_nil, placements,
                 List.mem_append] at h'
               rcases h' with (hin | hin) | hin
               · exact Or.inl (primsO_magnetPart_fst (by rw [hmp]; exact hin))
               · exact Or.inr (Or.inl (primsO_screwPart_fst (by rw [hsp]; exact hin)))
               · exact Or.inr (Or.inr (primsO_bridgePart_fst (by rw [hbp]; exact hin))))
      · rw [if_neg h3] at h
        have h' : t ∈ ([] : List (Prim × Vec3)) := h
        simp at h'

/-- C6: with `MagnetHolesShape = "Hex"`, every magnet hole that
`make_bottom_holes` leaves in its returned shape is a hexagonal prism of
depth `MagnetHoleDepth` whose circumscribed-circle radius is
`MagnetHoleDiameter / 2`: the second of the two duplicated hex blocks
overwrites the `c1..c4` prisms the first block built with circumradius
`MagnetHoleDiameter / sqrt(3)` — the per-cell result does not depend on the
value of `sqrt(3)` at all — so only the `diameter / 2` prisms reach the
fuse. -/
theorem magnet_hex_holes_diameter_half (o : Obj) :
    (∀ s3 s3' : ℚ, magnetHoleCell o s3 = magnetHoleCell o s3') ∧
    (o.MagnetHolesShape = .Hex →
      ∀ (s3 : ℚ) (p : Prim) (v : Vec3) (r d : ℚ) (pos : Vec3),
        (p, v) ∈ bottomHolesPrims o s3 → p = .hexPrism r d pos →
          r = o.MagnetHoleDiameter / 2 ∧ d = o.MagnetHoleDepth) := by
  refine ⟨fun s3 s3' => rfl, ?_⟩
  intro hhex s3 p v r d pos hmem hp
  subst hp
  have hmagnet : ∀ p' : Prim, p' ∈ primsOf (magnetHoleCell o s3) →
      ∀ (r' d' : ℚ) (pos' : Vec3), p' = Prim.hexPrism r' d' pos' →
        r' = o.MagnetHoleDiameter / 2 ∧ d' = o.MagnetHoleDepth := by
    intro p' hp' r' d' pos' he
    subst he
    simp [magnetHoleCell, hhex, hexQuad, Shape.mfuse, primsOf, placements] at hp'
    rcases hp' with ⟨h1, h2, -⟩ | ⟨h1, h2, -⟩ | ⟨h1, h2, -⟩ | ⟨h1, h2, -⟩ <;>
      exact ⟨h1, h2⟩
  have hscrew : ∀ p' : Prim, p' ∈ primsOf (screwHoleCell o) →
      ∀ (r' d' : ℚ) (pos' : Vec3), p' = Prim.hexPrism r' d' pos' → False := by
    intro p' hp' r' d' pos' he
    subst he
    simp [screwHoleCell, Shape.mfuse, primsOf, placements] at hp'
  have hbridge : ∀ p' : Prim, p' ∈ primsOf (bridgeCell o) →
      ∀ (r' d' : ℚ) (pos' : Vec3), p' = Prim.hexPrism r' d' pos' → False := by
    intro p' hp' r' d' pos' he
    subst he
    simp [bridgeCell, Shape.mfuse, primsOf, placements] at hp'
  rcases mem_bottomHolesPrims_cases o s3 _ hmem with h | h | h
  · exact hmagnet _ h r d pos rfl
  · exact absurd (hscrew _ h r d pos rfl) not_false
  · exact absurd (hbridge _ h r d pos rfl) not_false

/-- The per-compartment y width `ycompwidth` of `make_label_shelf`
(lines 340-342). -/
def ycompW (o : Obj) : ℚ :=
  (o.yTotalWidth - o.WallThickness * 2 - o.DividerThickness * (o.yDividers : ℚ)) /
    ((o.yDividers : ℚ) + 1)

/-- The shelf angle and placement `make_label_shelf` actually builds with:
lines 332-333 read the configured properties, lines 344-346 force angle `0`
and `"Full Width"` placement for the `"Overhang"` style, and lines 372-373
force `"Full Width"` placement whenever `LabelShelfLength` exceeds the
per-compartment y width.  The dispatch of lines 376-383 and the `v4_z`
computation of lines 348-354 consume exactly this pair. -/
def labelShelfEffectiveConfig (o : Obj) : ℚ × ShelfPlacement :=
  let shelf_angle := o.LabelShelfAngle
  let shelf_placement := o.LabelShelfPlacement
  let ap :=
    if o.LabelShelfStyle = .Overhang then ((0 : ℚ), ShelfPlacement.FullWidth)
    else (shelf_angle, shelf_placement)
  let shelf_placement := if o.LabelShelfLength > ycompW o then ShelfPlacement.FullWidth else ap.2
  (ap.1, shelf_placement)

/-- `-obj.LabelShelfStackingOffset if obj.StackingLip else 0*unitmm`
(line 331, also line 678). -/
def stackingOffset (o : Obj) : ℚ :=
  if o.StackingLip then -o.LabelShelfStackingOffset else 0

/-- `make_label_shelf(obj)` (lines 313-414), as a composite primitive carrying
the effective configuration: every geometric quantity of the function is
computed from the effective angle/placement pair and the recorded
properties. -/
def make_label_shelf (o : Obj) : Shape :=
  .prim (.labelShelf (labelShelfEffectiveConfig o).1 (labelShelfEffectiveConfig o).2
    o.xTotalWidth o.yTotalWidth o.BinUnit o.WallThickness o.DividerThickness
    o.LabelShelfWidth o.LabelShelfLength o.LabelShelfVerticalThickness
    (stackingOffset o) o.UsableHeight o.xDividers o.yDividers)

/-- C8: `make_label_shelf` silently overrides the configured placement and
angle.  With `LabelShelfStyle = "Overhang"` the shelf is built with shelf
angle `0` and `"Full Width"` placement regardless of the `LabelShelfAngle`
and `LabelShelfPlacement` properties; and independently, whenever
`LabelShelfLength` exceeds the computed per-compartment y width, the
placement actually used is `"Full Width"` regardless of
`LabelShelfPlacement`. -/
theorem label_shelf_placement_override (o : Obj) :
    (labelShelfEffectiveConfig { o with LabelShelfStyle := .Overhang } =
      (0, ShelfPlacement.FullWidth)) ∧
    (o.LabelShelfLength > ycompW o →
      (labelShelfEffectiveConfig o).2 = ShelfPlacement.FullWidth) ∧
    (∀ angle placement xtw ytw bu wt dt lw ll lvt so uh xd yd,
      make_label_shelf o =
        .prim (.labelShelf angle placement xtw ytw bu wt dt lw ll lvt so uh xd yd) →
      angle = (labelShelfEffectiveConfig o).1 ∧
        placement = (labelShelfEffectiveConfig o).2) := by
  refine ⟨?_, ?_, ?_⟩
  · simp [labelShelfEffectiveConfig, ite_self]
  · intro hlen
    simp [labelShelfEffectiveConfig, hlen]
  · intro angle placement xtw ytw bu wt dt lw ll lvt so uh xd yd h
    simp only [make_label_shelf, Shape.prim.injEq, Prim.labelShelf.injEq] at h
    exact ⟨h.1.symm, h.2.1.symm⟩

/-- A magnets-only single-cell variant of the test object. -/
def hexTestObj : Obj :=
  { testObj with xGridUnits := 1, yGridUnits := 1, ScrewHoles := false }

theorem magnet_hex_holes_diameter_half_witness :
    (3 : ℚ) = hexTestObj.MagnetHoleDiameter / 2 ∧
      (2 : ℚ) = hexTestObj.MagnetHoleDepth :=
  (magnet_hex_holes_diameter_half hexTestObj).2 rfl 2
    (Prim.hexPrism 3 2 (-13, -13, -42)) ((0 : ℚ), (0 : ℚ), (0 : ℚ))
    3 2 (-13, -13, -42)
    (by
      norm_num [bottomHolesPrims, make_bottom_holes, magnetPart, gridAccum,
        gridAccumAux, gridRow, fusePrefix, optFuse, magnetHoleCell, hexQuad,
        Shape.mfuse, placements, shiftP, hexTestObj, testObj, Prod.ext_iff])
    rfl

/-- A variant of the test object whose label shelf is longer than the
compartment. -/
def labelTestObj : Obj := { testObj with LabelShelfLength := 200 }

theorem label_shelf_placement_override_witness :
    (labelShelfEffectiveConfig labelTestObj).2 = ShelfPlacement.FullWidth :=
  (label_shelf_placement_override labelTestObj).2.1
    (by norm_num [ycompW, labelTestObj, testObj])

/-- `make_stacking_lip(obj)` (lines 558-647): one sweep of the lip profile
along the outer rounded rectangle, as a composite primitive over the
document properties those lines consume. -/
def make_stacking_lip (o : Obj) : Shape :=
  .prim (.stackingLipSweep o.xTotalWidth o.yTotalWidth o.BinUnit o.BinOuterRadius
    o.WallThickness o.StackingLipTopLedge o.StackingLipTopChamfer
    o.StackingLipBottomChamfer o.StackingLipVerticalSection)

/-- The compartment cutout base solid of `make_compartments` (lines 751-764). -/
def compartmentsBase (o : Obj) : Shape :=
  .translated (o.xTotalWidth / 2 - o.BinUnit / 2, o.yTotalWidth / 2 - o.BinUnit / 2, 0)
    (.prim (.extrudeRect (o.xTotalWidth - o.WallThickness * 2)
      (o.yTotalWidth - o.WallThickness * 2) (-o.UsableHeight) o.UsableHeight
      (o.BinOuterRadius - o.WallThickness)))

/-- The x-divider loop of `_make_compartments_with_deviders` (lines 691-706):
fuse translated copies of the divider box, stepping the translation. -/
def divAux (comp : Shape) (mkVec : ℚ → Vec3) (step : ℚ) :
    ℕ → ℚ → Option Shape → Option Shape
  | 0, _, acc => acc
  | n + 1, t, acc =>
      divAux comp mkVec step n (t + step) (some (optFuse acc (.translated (mkVec t) comp)))

/-- `make_compartments(obj)` (lines 741-772), with
`_make_compartments_no_deviders` (lines 650-668) and
`_make_compartments_with_deviders` (lines 671-738); the host-side edge
filtering that picks the fillet edges is abstracted into the `fillet` node. -/
def make_compartments (o : Obj) : Shape :=
  let func_fuse := compartmentsBase o
  if o.xDividers = 0 ∧ o.yDividers = 0 then
    Shape.fillet o.InsideFilletRadius func_fuse
  else
    let xdivheight := if o.xDividerHeight ≠ 0 then o.xDividerHeight else o.TotalHeight
    let ydivheight := if o.yDividerHeight ≠ 0 then o.yDividerHeight else o.TotalHeight
    let xcomp_w := xcompW o
    let ycomp_w := ycompW o
    let comp_x : Shape := .prim (.box o.DividerThickness o.yTotalWidth
      (xdivheight + stackingOffset o)
      (-o.BinUnit / 2 + o.DividerThickness, -o.BinUnit / 2, -o.TotalHeight) (0, 0, 1))
    let comp_y : Shape := .prim (.box o.xTotalWidth o.DividerThickness
      (ydivheight + stackingOffset o)
      (-o.BinUnit / 2, -o.BinUnit / 2, -o.TotalHeight) (0, 0, 1))
    let xdiv := divAux comp_x (fun t => (t, 0, 0)) (xcomp_w + o.DividerThickness)
      o.xDividers (xcomp_w + o.WallThickness - o.DividerThickness) none
    let ydiv := divAux comp_y (fun t => (0, t, 0)) (ycomp_w + o.DividerThickness)
      o.yDividers (ycomp_w + o.WallThickness) none
    let f1 := match xdiv with | some d => Shape.cut func_fuse d | none => func_fuse
    let f2 := match ydiv with | some d => Shape.cut f1 d | none => f1
    Shape.fillet o.InsideFilletRadius f2

/-- `make_eco_bin_cut(obj)` (lines 1412-1638), as a composite primitive over
the document properties those lines consume. -/
def make_eco_bin_cut (o : Obj) : Shape :=
  .prim (.ecoBinCut o.xTotalWidth o.yTotalWidth o.BinUnit o.BinOuterRadius
    o.WallThickness o.TotalHeight o.BaseProfileHeight o.BaseWallThickness
    o.BaseProfileTopChamfer o.BaseProfileBottomChamfer
    o.BaseProfileVerticalSection o.BinVerticalRadius o.MagnetHoleDepth
    o.InsideFilletRadius o.DividerThickness o.xDividerHeight o.yDividerHeight
    o.GridSize o.xDividers o.yDividers o.xGridUnits o.yGridUnits o.MagnetHoles)

/-- Evaluation of a shape tree against a host kernel `k` that may fail
(raise) on a primitive call: every composite operation simply consumes its
operands, so a failure in any sub-shape propagates to the whole
evaluation — the module installs no exception handler anywhere. -/
def evalShape (k : Prim → Option Unit) : Shape → Option Unit
  | .prim p => k p
  | .fuse a b =>
      match evalShape k a, evalShape k b with
      | some _, some _ => some ()
      | _, _ => none
  | .cut a b =>
      match evalShape k a, evalShape k b with
      | some _, some _ => some ()
      | _, _ => none
  | .fillet _ s => evalShape k s
  | .translated _ s => evalShape k s

/-- C9: host-kernel failures propagate uncaught.  For every shape any module
function builds, if the kernel fails on one of the primitive calls issued
while building it, the whole construction fails — no composite operation
recovers — and the only non-exception failure report in the module is
`make_scoop`'s `None` sentinel, which is always accompanied by its console
message. -/
theorem kernel_failure_propagation :
    (∀ (k : Prim → Option Unit) (s : Shape),
      (∃ p ∈ primsOf s, k p = none) → evalShape k s = none) ∧
    (∀ o : Obj, (make_scoop o).1 = none →
      (make_scoop o).2 =
        ["scooop could not be made due to bin selected parameters\n"]) := by
  constructor
  · intro k s
    induction s with
    | prim p =>
      rintro ⟨q, hq, hk⟩
      simp only [primsOf, placements, List.map_cons, List.map_nil, List.mem_cons,
        List.not_mem_nil, or_false] at hq
      subst hq
      simpa [evalShape] using hk
    | fuse a b iha ihb =>
      rintro ⟨q, hq, hk⟩
      have hsplit : q ∈ primsOf a ∨ q ∈ primsOf b := by
        simpa [primsOf, placements, List.map_append, List.mem_append] using hq
      rcases hsplit with h | h
      · have ha := iha ⟨q, h, hk⟩
        simp [evalShape, ha]
      · have hb := ihb ⟨q, h, hk⟩
        cases hA : evalShape k a <;> simp [evalShape, hA, hb]
    | cut a b iha ihb =>
      rintro ⟨q, hq, hk⟩
      have hsplit : q ∈ primsOf a ∨ q ∈ primsOf b := by
        simpa [primsOf, placements, List.map_append, List.mem_append] using hq
      rcases hsplit with h | h
      · have ha := iha ⟨q, h, hk⟩
        simp [evalShape, ha]
      · have hb := ihb ⟨q, h, hk⟩
        cases hA : evalShape k a <;> simp [evalShape, hA, hb]
    | fillet r s ih =>
      rintro ⟨q, hq, hk⟩
      have : q ∈ primsOf s := by simpa [primsOf, placements] using hq
      simpa [evalShape] using ih ⟨q, this, hk⟩
    | translated v s ih =>
      rintro ⟨q, hq, hk⟩
      have : q ∈ primsOf s := by
        simpa [primsOf, placements, List.map_map, Function.comp] using hq
      simpa [evalShape] using ih ⟨q, this, hk⟩
  · intro o h
    rw [make_scoop] at h ⊢
    by_cases hr : scooprad o ≤ 0
    · rw [if_pos hr]
    · rw [if_neg hr] at h
      exact absurd h (by simp)

/-- A host kernel that fails on every primitive call. -/
def failingKernel : Prim → Option Unit := fun _ => none

theorem kernel_failure_propagation_witness :
    evalShape failingKernel (make_stacking_lip testObj) = none :=
  kernel_failure_propagation.1 failingKernel (make_stacking_lip testObj)
    ⟨Prim.stackingLipSweep testObj.xTotalWidth testObj.yTotalWidth testObj.BinUnit
        testObj.BinOuterRadius testObj.WallThickness testObj.StackingLipTopLedge
        testObj.StackingLipTopChamfer testObj.StackingLipBottomChamfer
        testObj.StackingLipVerticalSection,
      by simp [make_stacking_lip, primsOf, placements], rfl⟩

/-- C10: every modelled construction function of the module is deterministic
in its inputs — two runs with equal document-object parameter values (and the
same host math constants) issue the same kernel-call tree and return equal
results; nothing else (time, randomness, interleaving, retry state) enters
any of these functions. -/
theorem construction_deterministic (o₁ o₂ : Obj) (s3 : ℚ) (h : o₁ = o₂) :
    make_bin_base o₁ = make_bin_base o₂ ∧
    make_baseplate_center_cut o₁ = make_baseplate_center_cut o₂ ∧
    make_scoop o₁ = make_scoop o₂ ∧
    make_bottom_holes o₁ s3 = make_bottom_holes o₂ s3 ∧
    make_label_shelf o₁ = make_label_shelf o₂ ∧
    make_stacking_lip o₁ = make_stacking_lip o₂ ∧
    make_compartments o₁ = make_compartments o₂ ∧
    make_eco_bin_cut o₁ = make_eco_bin_cut o₂ := by
  subst h
  exact ⟨rfl, rfl, rfl, rfl, rfl, rfl, rfl, rfl⟩

theorem construction_deterministic_witness :
    make_bin_base testObj = make_bin_base testObj :=
  (construction_deterministic testObj testObj 2 rfl).1

/-- A sketch curve handed to `Part.Shape` / `Part.Wire`: a three-point arc
(`Part.Arc(start, mid, end)`) or a line segment
(`Part.LineSegment(start, end)`). -/
inductive Edge where
  | arc (p0 pm p1 : Vec3)
  | seg (p0 p1 : Vec3)
deriving DecidableEq, Repr

def Edge.isArc : Edge → Bool
  | .arc _ _ _ => true
  | .seg _ _ => false

def Edge.isSeg : Edge → Bool
  | .arc _ _ _ => false
  | .seg _ _ => true

/-- The two endpoints of the edge. -/
def Edge.ends : Edge → Vec3 × Vec3
  | .arc p0 _ p1 => (p0, p1)
  | .seg p0 p1 => (p0, p1)

/-- All defining points of the edges of a wire, arc midpoints included. -/
def wirePoints : List Edge → List Vec3
  | [] => []
  | .arc p0 pm p1 :: es => p0 :: pm :: p1 :: wirePoints es
  | .seg p0 p1 :: es => p0 :: p1 :: wirePoints es

/-- The endpoint vertices of the edges of a wire. -/
def wireVertexes : List Edge → List Vec3
  | [] => []
  | e :: es => (Edge.ends e).1 :: (Edge.ends e).2 :: wireVertexes es

/-- A walk along the edges in order, starting at `start` and currently at
`cur`, traversing each edge in either orientation, that must return to
`start` when the edges run out. -/
def chainFrom (start : Vec3) : Vec3 → List Edge → Prop
  | cur, [] => cur = start
  | cur, e :: es =>
      ∃ nxt : Vec3, (Edge.ends e = (cur, nxt) ∨ Edge.ends e = (nxt, cur)) ∧
        chainFrom start nxt es

/-- The edge list forms one closed wire: it is nonempty and admits a closed
walk traversing every edge exactly once. -/
def isClosedWire (es : List Edge) : Prop :=
  es ≠ [] ∧ ∃ start : Vec3, chainFrom start start es

def mirrorX (p : Vec3) : Vec3 := (-p.1, p.2.1, p.2.2)

def mirrorY (p : Vec3) : Vec3 := (p.1, -p.2.1, p.2.2)

/-- `create_rounded_rectangle(xwidth, ywidth, zsketchplane, radius)`
(lines 17-74): the eight sketch curves, in the order they are passed to
`Part.Shape`.  The source computes the six auxiliary values and `v1` twice
(lines 35-49); the shadowed bindings mirror the duplication.  `s` carries the
host's value of `math.sin(math.pi / 4)`. -/
def create_rounded_rectangle (xwidth ywidth zsketchplane radius s : ℚ) :
    List Edge :=
  let xfarv := xwidth / 2
  let yfarv := ywidth / 2
  let xclosev := xwidth / 2 - radius
  let yclosev := ywidth / 2 - radius
  let xarcv := xwidth / 2 - radius + radius * s
  let yarcv := ywidth / 2 - radius + radius * s
  let xfarv := xwidth / 2
  let yfarv := ywidth / 2
  let xclosev := xwidth / 2 - radius
  let yclosev := ywidth / 2 - radius
  let xarcv := xwidth / 2 - radius + radius * s
  let yarcv := ywidth / 2 - radius + radius * s
  let v1 : Vec3 := (-xclosev, yfarv, zsketchplane)
  let v1 : Vec3 := (-xclosev, yfarv, zsketchplane)
  let v2 : Vec3 := (xclosev, yfarv, zsketchplane)
  let v3 : Vec3 := (xfarv, yclosev, zsketchplane)
  let v4 : Vec3 := (xfarv, -yclosev, zsketchplane)
  let v5 : Vec3 := (xclosev, -yfarv, zsketchplane)
  let v6 : Vec3 := (-xclosev, -yfarv, zsketchplane)
  let v7 : Vec3 := (-xfarv, -yclosev, zsketchplane)
  let v8 : Vec3 := (-xfarv, yclosev, zsketchplane)
  let vc1 : Vec3 := (-xarcv, yarcv, zsketchplane)
  let c1 := Edge.arc v1 vc1 v8
  let vc2 : Vec3 := (xarcv, yarcv, zsketchplane)
  let c2 := Edge.arc v2 vc2 v3
  let vc3 : Vec3 := (xarcv, -yarcv, zsketchplane)
  let c3 := Edge.arc v4 vc3 v5
  let vc4 : Vec3 := (-xarcv, -yarcv, zsketchplane)
  let c4 := Edge.arc v6 vc4 v7
  let l1 := Edge.seg v1 v2
  let l2 := Edge.seg v3 v4
  let l3 := Edge.seg v5 v6
  let l4 := Edge.seg v7 v8
  [c1, l1, c2, l2, c3, l3, c4, l4]

/-- C7: `create_rounded_rectangle(xwidth, ywidth, zsketchplane, radius)`
returns a single closed wire of exactly eight edges — four corner arcs and
four straight segments — all of whose defining points lie in the plane
`z = zsketchplane`; its vertex set is invariant under the mirror maps
`x ↦ -x` and `y ↦ -y`; and its extent is exactly
`[-xwidth/2, xwidth/2] × [-ywidth/2, ywidth/2]`: every defining point lies in
that box and each of its four sides is attained.  (`s` is the host's value of
`sin(π/4)`; the geometric parameters are assumed non-degenerate:
`0 ≤ radius`, `2*radius ≤ xwidth`, `2*radius ≤ ywidth`, `0 ≤ s ≤ 1`.) -/
theorem create_rounded_rectangle_wire_spec (xw yw zp r s : ℚ) (hr0 : 0 ≤ r)
    (hrx : 2 * r ≤ xw) (hry : 2 * r ≤ yw) (hs0 : 0 ≤ s) (hs1 : s ≤ 1) :
    ((create_rounded_rectangle xw yw zp r s).length = 8 ∧
      (create_rounded_rectangle xw yw zp r s).countP Edge.isArc = 4 ∧
      (create_rounded_rectangle xw yw zp r s).countP Edge.isSeg = 4) ∧
    (∀ p ∈ wirePoints (create_rounded_rectangle xw yw zp r s), p.2.2 = zp) ∧
    isClosedWire (create_rounded_rectangle xw yw zp r s) ∧
    (∀ p, p ∈ wireVertexes (create_rounded_rectangle xw yw zp r s) ↔
      mirrorX p ∈ wireVertexes (create_rounded_rectangle xw yw zp r s)) ∧
    (∀ p, p ∈ wireVertexes (create_rounded_rectangle xw yw zp r s) ↔
      mirrorY p ∈ wireVertexes (create_rounded_rectangle xw yw zp r s)) ∧
    (∀ p ∈ wirePoints (create_rounded_rectangle xw yw zp r s),
      -(xw / 2) ≤ p.1 ∧ p.1 ≤ xw / 2 ∧ -(yw / 2) ≤ p.2.1 ∧ p.2.1 ≤ yw / 2) ∧
    ((∃ p ∈ wirePoints (create_rounded_rectangle xw yw zp r s), p.1 = xw / 2) ∧
      (∃ p ∈ wirePoints (create_rounded_rectangle xw yw zp r s), p.1 = -(xw / 2)) ∧
      (∃ p ∈ wirePoints (create_rounded_rectangle xw yw zp r s), p.2.1 = yw / 2) ∧
      (∃ p ∈ wirePoints (create_rounded_rectangle xw yw zp r s),
        p.2.1 = -(yw / 2))) := by
  have hrs0 : 0 ≤ r * s := mul_nonneg hr0 hs0
  have hrs1 : r * s ≤ r := by nlinarith
  have hclX : ∀ p ∈ wireVertexes (create_rounded_rectangle xw yw zp r s),
      mirrorX p ∈ wireVertexes (create_rounded_rectangle xw yw zp r s) := by
    simp only [create_rounded_rectangle, wireVertexes, Edge.ends,
      List.forall_mem_cons, List.forall_mem_nil, and_true]
    repeat' apply And.intro
    all_goals simp [mirrorX, neg_neg]
  have hclY : ∀ p ∈ wireVertexes (create_rounded_rectangle xw yw zp r s),
      mirrorY p ∈ wireVertexes (create_rounded_rectangle xw yw zp r s) := by
    simp only [create_rounded_rectangle, wireVertexes, Edge.ends,
      List.forall_mem_cons, List.forall_mem_nil, and_true]
    repeat' apply And.intro
    all_goals simp [mirrorY, neg_neg]
  have hinvX : ∀ p : Vec3, mirrorX (mirrorX p) = p := by
    intro p
    simp [mirrorX]
  have hinvY : ∀ p : Vec3, mirrorY (mirrorY p) = p := by
    intro p
    simp [mirrorY]
  refine ⟨⟨rfl, rfl, rfl⟩, ?_, ?_, ?_, ?_, ?_, ?_⟩
  · simp [create_rounded_rectangle, wirePoints, List.forall_mem_cons]
  · refine ⟨by simp [create_rounded_rectangle], (-(xw / 2), yw / 2 - r, zp), ?_⟩
    exact ⟨(-(xw / 2 - r), yw / 2, zp), Or.inr rfl,
      (xw / 2 - r, yw / 2, zp), Or.inl rfl,
      (xw / 2, yw / 2 - r, zp), Or.inl rfl,
      (xw / 2, -(yw / 2 - r), zp), Or.inl rfl,
      (xw / 2 - r, -(yw / 2), zp), Or.inl rfl,
      (-(xw / 2 - r), -(yw / 2), zp), Or.inl rfl,
      (-(xw / 2), -(yw / 2 - r), zp), Or.inl rfl,
      (-(xw / 2), yw / 2 - r, zp), Or.inl rfl,
      rfl⟩
  · intro p
    refine ⟨fun h => hclX p h, fun h => ?_⟩
    have := hclX _ h
    rwa [hinvX p] at this
  · intro p
    refine ⟨fun h => hclY p h, fun h => ?_⟩
    have := hclY _ h
    rwa [hinvY p] at this
  · simp only [create_rounded_rectangle, wirePoints, List.forall_mem_cons,
      List.forall_mem_nil, and_true]
    repeat' apply And.intro
    all_goals first
      | linarith
      | simp
  · refine ⟨⟨(xw / 2, yw / 2 - r, zp), ?_, rfl⟩,
      ⟨(-(xw / 2), yw / 2 - r, zp), ?_, rfl⟩,
      ⟨(xw / 2 - r, yw / 2, zp), ?_, rfl⟩,
      ⟨(xw / 2 - r, -(yw / 2), zp), ?_, rfl⟩⟩ <;>
      simp [create_rounded_rectangle, wirePoints]

theorem create_rounded_rectangle_wire_spec_witness :
    (create_rounded_rectangle 10 6 0 2 (7 / 10)).length = 8 :=
  (create_rounded_rectangle_wire_spec 10 6 0 2 (7 / 10) (by norm_num)
    (by norm_num) (by norm_num) (by norm_num) (by norm_num)).1.1

end Gridfinity
